import Mathlib

/-!
# Verification of the brennpunkt LCOV parsing-and-scoring core

Shallow embedding of `src/parser.ts` (`parseLcov`) and `src/analyzer.ts`
(`calculateOverallCoverage`, `analyzeFile`, `analyzeCoverage`).

Modelling conventions:

* A JavaScript `number` is modelled by `JSNum := Option ℚ`: `some q` is the
  finite value `q` (arithmetic is exact, abstracting from IEEE-754 rounding
  and overflow) and `none` is `NaN`.  All arithmetic helpers propagate `NaN`,
  and every comparison with `NaN` is false, as in JavaScript.  The infinities
  are not modelled: in the analyzed code every division is guarded by a
  strict positivity test on the denominator, so `x / 0` is never evaluated;
  the `jsDiv` helper returns `NaN` in that unreachable case.
* Strings are modelled as `List Char`.  `String.prototype.trim` is
  `trimChars` (strip leading and trailing whitespace), `startsWith` is
  `List.isPrefixOf`, `slice(n)` is `List.drop n`, and `split('\n')` is
  `List.splitOn '\n'`.
* `parseInt(s, 10)` is `jsParseInt`: skip leading whitespace, read an
  optional sign and then the longest digit prefix; no digits gives `NaN`.
* `Math.round x` is `⌊x + 1/2⌋` (round half towards positive infinity),
  which is exactly JavaScript's behaviour on finite values.
* `Math.log10` is transcendental, hence not representable by a computable
  exact function; the analyzer definitions take it as an explicit function
  parameter `l10 : ℚ → ℚ`, and theorems that need facts about the real
  `log10` (such as its positivity on `[2, ∞)`) take them as hypotheses.
-/

-- Batteries marks the arithmetic of `Rat` `@[irreducible]`, which prevents
-- `decide` from evaluating concrete rational computations during
-- elaboration; restore the ordinary transparency so that concrete runs of
-- the embedded code can be checked by evaluation.
set_option allowUnsafeReducibility true in
attribute [semireducible] Rat.add Rat.sub Rat.mul Rat.inv

/-- A JavaScript number: `some q` is a finite value, `none` is `NaN`. -/
abbrev JSNum := Option ℚ

/-- JavaScript `+` on numbers (`NaN` propagates). -/
def jsAdd (a b : JSNum) : JSNum :=
  match a, b with
  | some x, some y => some (x + y)
  | _, _ => none

/-- JavaScript binary `-` on numbers (`NaN` propagates). -/
def jsSub (a b : JSNum) : JSNum :=
  match a, b with
  | some x, some y => some (x - y)
  | _, _ => none

/-- JavaScript `*` on numbers (`NaN` propagates). -/
def jsMul (a b : JSNum) : JSNum :=
  match a, b with
  | some x, some y => some (x * y)
  | _, _ => none

/-- JavaScript `/` on numbers (`NaN` propagates).  Division by zero yields
`NaN` here; in the embedded code every division sits under a `> 0` guard on
the denominator, so that case is never reached. -/
def jsDiv (a b : JSNum) : JSNum :=
  match a, b with
  | some x, some y => if y = 0 then none else some (x / y)
  | _, _ => none

/-- JavaScript `a > q` for a constant right-hand side; false on `NaN`. -/
def jsGtB (a : JSNum) (q : ℚ) : Bool :=
  match a with
  | some x => decide (q < x)
  | none => false

/-- JavaScript `a >= q` for a constant right-hand side; false on `NaN`. -/
def jsGeB (a : JSNum) (q : ℚ) : Bool :=
  match a with
  | some x => decide (q ≤ x)
  | none => false

/-- `Math.round`: round half towards positive infinity; `NaN` propagates. -/
def jsRound (a : JSNum) : JSNum :=
  a.map (fun q => ((⌊q + 1/2⌋ : ℤ) : ℚ))

/-- `Math.max(a, q)` with a finite constant `q`; `NaN` propagates. -/
def jsMax (a : JSNum) (q : ℚ) : JSNum :=
  a.map (fun x => max x q)

/-- Strip leading and trailing whitespace, as `String.prototype.trim`. -/
def trimChars (l : List Char) : List Char :=
  ((l.dropWhile Char.isWhitespace).reverse.dropWhile Char.isWhitespace).reverse

/-- Numeric value of the longest leading digit run; `none` when it is empty
(the "no digits at all" case of `parseInt`, which yields `NaN`). -/
def digitsVal (cs : List Char) : Option ℕ :=
  let ds := cs.takeWhile (fun c => c.isDigit)
  if ds.isEmpty then none
  else some (ds.foldl (fun a c => 10 * a + (c.toNat - 48)) 0)

/-- `parseInt(s, 10)`: skip leading whitespace, optional sign, longest digit
prefix; trailing garbage is ignored; no digits gives `NaN`. -/
def jsParseInt (cs : List Char) : JSNum :=
  let t := cs.dropWhile Char.isWhitespace
  if t.head? = some '-' then (digitsVal t.tail).map (fun n => -(n : ℚ))
  else if t.head? = some '+' then (digitsVal t.tail).map (fun n => (n : ℚ))
  else (digitsVal t).map (fun n => (n : ℚ))

/-- `LcovFileData` from `src/types.ts`: one tally per source-file record.
The six counters are JavaScript numbers (`parseInt` can produce `NaN`). -/
structure LcovFileData where
  file : List Char
  linesFound : JSNum
  linesHit : JSNum
  functionsFound : JSNum
  functionsHit : JSNum
  branchesFound : JSNum
  branchesHit : JSNum
deriving Repr, DecidableEq

/-- The fresh tally created when an `SF:` line opens a record. -/
def freshTally (path : List Char) : LcovFileData :=
  { file := path
    linesFound := some 0
    linesHit := some 0
    functionsFound := some 0
    functionsHit := some 0
    branchesFound := some 0
    branchesHit := some 0 }

/-- The marker `"SF:"`. -/
def sfMark : List Char := ['S', 'F', ':']

/-- The marker `"LF:"`. -/
def lfMark : List Char := ['L', 'F', ':']

/-- The marker `"LH:"`. -/
def lhMark : List Char := ['L', 'H', ':']

/-- The marker `"FNF:"`. -/
def fnfMark : List Char := ['F', 'N', 'F', ':']

/-- The marker `"FNH:"`. -/
def fnhMark : List Char := ['F', 'N', 'H', ':']

/-- The marker `"BRF:"`. -/
def brfMark : List Char := ['B', 'R', 'F', ':']

/-- The marker `"BRH:"`. -/
def brhMark : List Char := ['B', 'R', 'H', ':']

/-- The marker `"end_of_record"`. -/
def endMark : List Char := "end_of_record".toList

/-- One iteration of the `for (const line of content.split('\n'))` loop of
`parseLcov`: the state is the emitted list `files` together with the
`current` open record (if any). -/
def lcovStep (acc : List LcovFileData × Option LcovFileData) (line : List Char) :
    List LcovFileData × Option LcovFileData :=
  let files := acc.1
  let current := acc.2
  let trimmed := trimChars line
  if sfMark.isPrefixOf trimmed then
    (files, some (freshTally (trimmed.drop 3)))
  else
    match current with
    | none => (files, none)
    | some cur =>
      if lfMark.isPrefixOf trimmed then
        (files, some { cur with linesFound := jsParseInt (trimmed.drop 3) })
      else if lhMark.isPrefixOf trimmed then
        (files, some { cur with linesHit := jsParseInt (trimmed.drop 3) })
      else if fnfMark.isPrefixOf trimmed then
        (files, some { cur with functionsFound := jsParseInt (trimmed.drop 4) })
      else if fnhMark.isPrefixOf trimmed then
        (files, some { cur with functionsHit := jsParseInt (trimmed.drop 4) })
      else if brfMark.isPrefixOf trimmed then
        (files, some { cur with branchesFound := jsParseInt (trimmed.drop 4) })
      else if brhMark.isPrefixOf trimmed then
        (files, some { cur with branchesHit := jsParseInt (trimmed.drop 4) })
      else if trimmed = endMark then
        (files ++ [cur], none)
      else
        (files, some cur)

/-- The body of `parseLcov` after splitting the input into lines. -/
def parseLcovLines (lines : List (List Char)) : List LcovFileData :=
  (lines.foldl lcovStep ([], none)).1

/-- `parseLcov` from `src/parser.ts`: split on `'\n'` and run the
line-by-line state machine. -/
def parseLcov (content : List Char) : List LcovFileData :=
  parseLcovLines (content.splitOn '\n')

example :
    parseLcov ("SF:src/index.ts\nLF:100\nLH:80\nFNF:10\nFNH:8\nBRF:20\nBRH:15\nend_of_record").toList =
      [{ file := "src/index.ts".toList
         linesFound := some 100
         linesHit := some 80
         functionsFound := some 10
         functionsHit := some 8
         branchesFound := some 20
         branchesHit := some 15 }] := by
  decide

example : parseLcov ("SF:src/incomplete.ts\nLF:100\nLH:50").toList = [] := by
  decide

example :
    (parseLcov ("SF:x\nLF:abc\nend_of_record").toList).map (fun f => f.linesFound) =
      [none] := by
  decide

/-! ## The analyzer (`src/analyzer.ts`) -/

/-- `PriorityWeights` from `src/types.ts`.  The weights come from validated
configuration, so they are modelled as finite rationals. -/
structure PriorityWeights where
  lines : ℚ
  functions : ℚ
  branches : ℚ
deriving Repr, DecidableEq

/-- One `{found, hit, coverage}` triple of `OverallCoverage`/`AnalyzedFile`. -/
structure CoverageMetric where
  found : JSNum
  hit : JSNum
  coverage : JSNum
deriving Repr, DecidableEq

/-- `OverallCoverage` from `src/types.ts`. -/
structure OverallCoverage where
  lines : CoverageMetric
  functions : CoverageMetric
  branches : CoverageMetric
  fileCount : ℕ
deriving Repr, DecidableEq

/-- `AnalyzedFile` from `src/types.ts`. -/
structure AnalyzedFile where
  file : List Char
  lines : CoverageMetric
  functions : CoverageMetric
  branches : CoverageMetric
  priorityScore : JSNum
  uncoveredLines : JSNum
  uncoveredBranches : JSNum
deriving Repr, DecidableEq

/-- The accumulator of the `reduce` inside `calculateOverallCoverage`. -/
structure CovTotals where
  linesFound : JSNum
  linesHit : JSNum
  functionsFound : JSNum
  functionsHit : JSNum
  branchesFound : JSNum
  branchesHit : JSNum
deriving Repr, DecidableEq

/-- The reducer of `calculateOverallCoverage`. -/
def addTotals (acc : CovTotals) (f : LcovFileData) : CovTotals :=
  { linesFound := jsAdd acc.linesFound f.linesFound
    linesHit := jsAdd acc.linesHit f.linesHit
    functionsFound := jsAdd acc.functionsFound f.functionsFound
    functionsHit := jsAdd acc.functionsHit f.functionsHit
    branchesFound := jsAdd acc.branchesFound f.branchesFound
    branchesHit := jsAdd acc.branchesHit f.branchesHit }

/-- The zero initial accumulator of the `reduce`. -/
def zeroTotals : CovTotals :=
  { linesFound := some 0, linesHit := some 0
    functionsFound := some 0, functionsHit := some 0
    branchesFound := some 0, branchesHit := some 0 }

/-- `found > 0 ? Math.round((hit / found) * 10000) / 100 : 100` — the
aggregate percentage computation of `calculateOverallCoverage`. -/
def overallPct (found hit : JSNum) : JSNum :=
  if jsGtB found 0 then
    jsDiv (jsRound (jsMul (jsDiv hit found) (some 10000))) (some 100)
  else some 100

/-- `calculateOverallCoverage` from `src/analyzer.ts`. -/
def calculateOverallCoverage (files : List LcovFileData) : OverallCoverage :=
  let totals := files.foldl addTotals zeroTotals
  { lines :=
      { found := totals.linesFound
        hit := totals.linesHit
        coverage := overallPct totals.linesFound totals.linesHit }
    functions :=
      { found := totals.functionsFound
        hit := totals.functionsHit
        coverage := overallPct totals.functionsFound totals.functionsHit }
    branches :=
      { found := totals.branchesFound
        hit := totals.branchesHit
        coverage := overallPct totals.branchesFound totals.branchesHit }
    fileCount := files.length }

/-- `analyzeFile` from `src/analyzer.ts`.  `l10` is the `Math.log10`
function, taken as a parameter (see the header comment). -/
def analyzeFile (l10 : ℚ → ℚ) (file : LcovFileData) (weights : PriorityWeights) :
    AnalyzedFile :=
  let lineCoverage : JSNum :=
    if jsGtB file.linesFound 0 then
      jsMul (jsDiv file.linesHit file.linesFound) (some 100)
    else some 100
  let functionCoverage : JSNum :=
    if jsGtB file.functionsFound 0 then
      jsMul (jsDiv file.functionsHit file.functionsFound) (some 100)
    else some 100
  let branchCoverage : JSNum :=
    if jsGtB file.branchesFound 0 then
      jsMul (jsDiv file.branchesHit file.branchesFound) (some 100)
    else some 100
  let lineGap := jsSub (some 100) lineCoverage
  let functionGap := jsSub (some 100) functionCoverage
  let branchGap := jsSub (some 100) branchCoverage
  let sizeFactor : JSNum := (jsAdd (jsMax file.linesFound 1) (some 1)).map l10
  let priorityScore :=
    jsMul
      (jsAdd (jsAdd (jsMul branchGap (some weights.branches))
                    (jsMul functionGap (some weights.functions)))
             (jsMul lineGap (some weights.lines)))
      sizeFactor
  { file := file.file
    lines :=
      { found := file.linesFound
        hit := file.linesHit
        coverage := jsDiv (jsRound (jsMul lineCoverage (some 100))) (some 100) }
    functions :=
      { found := file.functionsFound
        hit := file.functionsHit
        coverage := jsDiv (jsRound (jsMul functionCoverage (some 100))) (some 100) }
    branches :=
      { found := file.branchesFound
        hit := file.branchesHit
        coverage := jsDiv (jsRound (jsMul branchCoverage (some 100))) (some 100) }
    priorityScore := jsDiv (jsRound (jsMul priorityScore (some 100))) (some 100)
    uncoveredLines := jsSub file.linesFound file.linesHit
    uncoveredBranches := jsSub file.branchesFound file.branchesHit }

/-- `AnalysisResult` from `src/types.ts`. -/
structure AnalysisResult where
  overall : OverallCoverage
  files : List AnalyzedFile
deriving Repr, DecidableEq

/-- The comparator `(a, b) => b.priorityScore - a.priorityScore` of the
`.sort(...)` call, as a Boolean "a may precede b" relation.  On finite
scores it is exactly "descending by stored score"; a `NaN` score is keyed
as `0` to keep the relation transitive and total (JavaScript's sort is
unspecified for comparators that are inconsistent on `NaN`; the theorems
below only concern tallies with finite fields). -/
def scoreDescB (a b : AnalyzedFile) : Bool :=
  decide (b.priorityScore.getD 0 ≤ a.priorityScore.getD 0)

/-- `array.slice(0, t)` for an integer `t`: a negative `t` counts from the
end of the array (clamped at `0`). -/
def jsSliceTo (l : List AnalyzedFile) (t : ℤ) : List AnalyzedFile :=
  if 0 ≤ t then l.take t.toNat else l.take ((l.length : ℤ) + t).toNat

/-- The `filter → map → sort` pipeline of `analyzeCoverage` (the local
`analyzed` constant), modelling the stable JavaScript sort by a stable
merge sort. -/
def analyzedPipeline (l10 : ℚ → ℚ) (files : List LcovFileData)
    (weights : PriorityWeights) (minLines : ℚ) : List AnalyzedFile :=
  ((files.filter (fun f => jsGeB f.linesFound minLines)).map
      (fun f => analyzeFile l10 f weights)).mergeSort scoreDescB

/-- `analyzeCoverage` from `src/analyzer.ts`.  `top : Option ℤ` models the
`number | null` parameter (an integer after CLI/config validation);
`top ? analyzed.slice(0, top) : analyzed` tests JavaScript truthiness, so
`null` and `0` both skip the slice. -/
def analyzeCoverage (l10 : ℚ → ℚ) (files : List LcovFileData)
    (weights : PriorityWeights) (minLines : ℚ) (top : Option ℤ) :
    AnalysisResult :=
  let overall := calculateOverallCoverage files
  let analyzed := analyzedPipeline l10 files weights minLines
  let results :=
    match top with
    | some t => if t = 0 then analyzed else jsSliceTo analyzed t
    | none => analyzed
  { overall := overall, files := results }

example :
    (analyzeFile (fun _ => 1)
      { file := "a".toList, linesFound := some 100, linesHit := some 50
        functionsFound := some 10, functionsHit := some 5
        branchesFound := some 20, branchesHit := some 10 }
      { lines := 1/5, functions := 3/10, branches := 1/2 }).priorityScore =
      some 50 := by
  decide

/-! ## Well-formed records, for the round-trip property -/

/-- The content of one well-formed LCOV record: a path and six
(non-negative) integer counters. -/
structure LcovRecord where
  path : List Char
  lf : ℕ
  lh : ℕ
  fnf : ℕ
  fnh : ℕ
  brf : ℕ
  brh : ℕ
deriving Repr, DecidableEq

/-- Decimal rendering of a natural number. -/
def renderNat (n : ℕ) : List Char :=
  if n = 0 then ['0'] else ((Nat.digits 10 n).reverse.map Nat.digitChar)

/-- The eight lines of a well-formed record: the `SF:` line, the six counter
lines in conventional order, and the closing `end_of_record`. -/
def renderRecord (r : LcovRecord) : List (List Char) :=
  [sfMark ++ r.path,
   lfMark ++ renderNat r.lf,
   lhMark ++ renderNat r.lh,
   fnfMark ++ renderNat r.fnf,
   fnhMark ++ renderNat r.fnh,
   brfMark ++ renderNat r.brf,
   brhMark ++ renderNat r.brh,
   endMark]

/-- The tally a well-formed record denotes. -/
def recordTally (r : LcovRecord) : LcovFileData :=
  { file := r.path
    linesFound := some (r.lf : ℚ)
    linesHit := some (r.lh : ℚ)
    functionsFound := some (r.fnf : ℚ)
    functionsHit := some (r.fnh : ℚ)
    branchesFound := some (r.brf : ℚ)
    branchesHit := some (r.brh : ℚ) }

/-! ## The scoring formula as the specification words it

These definitions are written from the specification text (§4.2), to be
compared with the implementation-derived `analyzeFile`. -/

/-- Spec §3: `coveragePercent = hit/found*100` when `found > 0`, else
exactly `100`. -/
def specCoveragePct (found hit : ℚ) : ℚ :=
  if 0 < found then hit / found * 100 else 100

/-- Spec §4.2: the gap of a category is `100 - coveragePercent`. -/
def specGap (found hit : ℚ) : ℚ :=
  100 - specCoveragePct found hit

/-- Rounding to two decimal places (`Math.round (x * 100) / 100`). -/
def round2 (q : ℚ) : ℚ :=
  ((⌊q * 100 + 1/2⌋ : ℤ) : ℚ) / 100

/-- Spec §4.2: the priority score before rounding,
`(branchGap * wB + functionGap * wF + lineGap * wL) * log10(max(linesFound, 1) + 1)`. -/
def specPriorityScore (l10 : ℚ → ℚ) (lf lh fnf fnh brf brh : ℚ)
    (weights : PriorityWeights) : ℚ :=
  (specGap brf brh * weights.branches
    + specGap fnf fnh * weights.functions
    + specGap lf lh * weights.lines) * l10 (max lf 1 + 1)

/-! ## Parser lemmas -/

theorem isPrefixOf_false_of_head_ne {a b : Char} {as bs : List Char} (h : a ≠ b) :
    (a :: as).isPrefixOf (b :: bs) = false := by
  simp [List.isPrefixOf_cons₂, h]

theorem exists_cons_of_isPrefixOf {a : Char} {as l : List Char}
    (h : (a :: as).isPrefixOf l = true) : ∃ t, l = a :: t := by
  cases l with
  | nil => simp at h
  | cons b bs =>
    rw [List.isPrefixOf_cons₂, Bool.and_eq_true] at h
    exact ⟨bs, by rw [eq_of_beq h.1]⟩

theorem sf_false_of_lf {t : List Char} (h : lfMark.isPrefixOf t = true) :
    sfMark.isPrefixOf t = false := by
  obtain ⟨rest, rfl⟩ := exists_cons_of_isPrefixOf h
  exact isPrefixOf_false_of_head_ne (by decide)

theorem lcovStep_sf {st : List LcovFileData × Option LcovFileData} {line : List Char}
    (h : sfMark.isPrefixOf (trimChars line) = true) :
    lcovStep st line = (st.1, some (freshTally ((trimChars line).drop 3))) := by
  simp [lcovStep, h]

theorem lcovStep_lf {fs : List LcovFileData} {c : LcovFileData} {line : List Char}
    (h : lfMark.isPrefixOf (trimChars line) = true) :
    lcovStep (fs, some c) line =
      (fs, some { c with linesFound := jsParseInt ((trimChars line).drop 3) }) := by
  simp [lcovStep, sf_false_of_lf h, h]

theorem lcovStep_fst {acc : List LcovFileData × Option LcovFileData} {line : List Char}
    (h : trimChars line ≠ endMark) : (lcovStep acc line).1 = acc.1 := by
  obtain ⟨fs, cur⟩ := acc
  cases cur with
  | none => simp only [lcovStep]; split_ifs <;> rfl
  | some c => simp only [lcovStep]; split_ifs <;> simp_all

theorem lcovStep_some {fs : List LcovFileData} {c : LcovFileData} {line : List Char}
    (hsf : sfMark.isPrefixOf (trimChars line) = false)
    (hend : trimChars line ≠ endMark) :
    ∃ c', lcovStep (fs, some c) line = (fs, some c') ∧
      (lfMark.isPrefixOf (trimChars line) = false →
        c'.linesFound = c.linesFound) ∧
      (lhMark.isPrefixOf (trimChars line) = false →
        c'.linesHit = c.linesHit) ∧
      (fnfMark.isPrefixOf (trimChars line) = false →
        c'.functionsFound = c.functionsFound) ∧
      (fnhMark.isPrefixOf (trimChars line) = false →
        c'.functionsHit = c.functionsHit) ∧
      (brfMark.isPrefixOf (trimChars line) = false →
        c'.branchesFound = c.branchesFound) ∧
      (brhMark.isPrefixOf (trimChars line) = false →
        c'.branchesHit = c.branchesHit) := by
  simp only [lcovStep, hsf, Bool.false_eq_true, if_false]
  split_ifs <;> refine ⟨_, rfl, ?_, ?_, ?_, ?_, ?_, ?_⟩ <;> intro hx <;> simp_all

theorem foldl_lcovStep_fst {ls : List (List Char)}
    (h : ∀ l ∈ ls, trimChars l ≠ endMark) :
    ∀ st : List LcovFileData × Option LcovFileData,
      (ls.foldl lcovStep st).1 = st.1 := by
  induction ls with
  | nil => intro st; rfl
  | cons l ls ih =>
    intro st
    rw [List.foldl_cons]
    rw [ih (fun x hx => h x (List.mem_cons_of_mem _ hx))]
    exact lcovStep_fst (h l (List.mem_cons_self _ _))

theorem foldl_lcovStep_some {ls : List (List Char)}
    (h : ∀ l ∈ ls, sfMark.isPrefixOf (trimChars l) = false ∧ trimChars l ≠ endMark) :
    ∀ (fs : List LcovFileData) (c : LcovFileData),
      ∃ c', ls.foldl lcovStep (fs, some c) = (fs, some c') ∧
        ((∀ l ∈ ls, lfMark.isPrefixOf (trimChars l) = false) →
          c'.linesFound = c.linesFound) ∧
        ((∀ l ∈ ls, lhMark.isPrefixOf (trimChars l) = false) →
          c'.linesHit = c.linesHit) ∧
        ((∀ l ∈ ls, fnfMark.isPrefixOf (trimChars l) = false) →
          c'.functionsFound = c.functionsFound) ∧
        ((∀ l ∈ ls, fnhMark.isPrefixOf (trimChars l) = false) →
          c'.functionsHit = c.functionsHit) ∧
        ((∀ l ∈ ls, brfMark.isPrefixOf (trimChars l) = false) →
          c'.branchesFound = c.branchesFound) ∧
        ((∀ l ∈ ls, brhMark.isPrefixOf (trimChars l) = false) →
          c'.branchesHit = c.branchesHit) := by
  induction ls with
  | nil =>
    exact fun fs c => ⟨c, rfl, fun _ => rfl, fun _ => rfl, fun _ => rfl,
      fun _ => rfl, fun _ => rfl, fun _ => rfl⟩
  | cons l ls ih =>
    intro fs c
    obtain ⟨h1, h2⟩ := h l (List.mem_cons_self _ _)
    obtain ⟨c1, hc1, p1, p2, p3, p4, p5, p6⟩ := @lcovStep_some fs c l h1 h2
    obtain ⟨c', hc', q1, q2, q3, q4, q5, q6⟩ :=
      ih (fun x hx => h x (List.mem_cons_of_mem _ hx)) fs c1
    refine ⟨c', by rw [List.foldl_cons, hc1, hc'], ?_, ?_, ?_, ?_, ?_, ?_⟩ <;>
      intro hall
    · rw [q1 (fun x hx => hall x (List.mem_cons_of_mem _ hx)),
        p1 (hall l (List.mem_cons_self _ _))]
    · rw [q2 (fun x hx => hall x (List.mem_cons_of_mem _ hx)),
        p2 (hall l (List.mem_cons_self _ _))]
    · rw [q3 (fun x hx => hall x (List.mem_cons_of_mem _ hx)),
        p3 (hall l (List.mem_cons_self _ _))]
    · rw [q4 (fun x hx => hall x (List.mem_cons_of_mem _ hx)),
        p4 (hall l (List.mem_cons_self _ _))]
    · rw [q5 (fun x hx => hall x (List.mem_cons_of_mem _ hx)),
        p5 (hall l (List.mem_cons_self _ _))]
    · rw [q6 (fun x hx => hall x (List.mem_cons_of_mem _ hx)),
        p6 (hall l (List.mem_cons_self _ _))]

/-- C5: a line whose trimmed content starts with `SF:` opens a record whose
`file` is the remainder of the trimmed line after the three marker
characters, with no further trimming or validation; in particular, when the
line carries no surrounding whitespace of its own, the path — including any
leading or trailing spaces it contains — is taken verbatim from the line. -/
theorem sf_path_verbatim :
    ∀ (st : List LcovFileData × Option LcovFileData) (l : List Char),
      sfMark.isPrefixOf (trimChars l) = true →
      lcovStep st l = (st.1, some (freshTally ((trimChars l).drop 3))) ∧
        (trimChars l = l → lcovStep st l = (st.1, some (freshTally (l.drop 3)))) := by
  intro st l h
  refine ⟨lcovStep_sf h, fun ht => ?_⟩
  rw [lcovStep_sf h, ht]

/-- C5 witness: the line `"SF:  a b"` carries no surrounding whitespace of
its own, and the two leading spaces of the path `"  a b"` are preserved. -/
theorem sf_path_verbatim_witness :
    lcovStep ([], none) ("SF:  a b".toList) =
      ([], some (freshTally ("  a b".toList))) :=
  ((sf_path_verbatim ([], none) ("SF:  a b".toList) (by decide)).2 (by decide))

theorem lcovStep_endMark (fs : List LcovFileData) (c : LcovFileData) :
    lcovStep (fs, some c) endMark = (fs ++ [c], none) := by
  simp [lcovStep,
    show trimChars endMark = endMark by decide,
    show sfMark.isPrefixOf endMark = false by decide,
    show lfMark.isPrefixOf endMark = false by decide,
    show lhMark.isPrefixOf endMark = false by decide,
    show fnfMark.isPrefixOf endMark = false by decide,
    show fnhMark.isPrefixOf endMark = false by decide,
    show brfMark.isPrefixOf endMark = false by decide,
    show brhMark.isPrefixOf endMark = false by decide]

/-- C7: a record that is never closed contributes nothing to the output.
First, over any run of lines containing no `end_of_record` marker the
emitted list is unchanged — so a record still open at the end of the input
is dropped.  Second, an `SF:` line replaces whatever record was open by a
fresh all-zero tally, so none of the discarded record's counter values can
leak into a later record.  Third, in particular, an input whose lines
contain no `end_of_record` at all (such as a single unterminated record)
parses to the empty list. -/
theorem unclosed_record_discarded :
    (∀ (ls : List (List Char)) (st : List LcovFileData × Option LcovFileData),
      (∀ l ∈ ls, trimChars l ≠ endMark) → (ls.foldl lcovStep st).1 = st.1)
    ∧ (∀ (l : List Char) (rest : List (List Char))
        (st : List LcovFileData × Option LcovFileData),
        sfMark.isPrefixOf (trimChars l) = true →
        (l :: rest).foldl lcovStep st =
          rest.foldl lcovStep (st.1, some (freshTally ((trimChars l).drop 3))))
    ∧ (∀ ls : List (List Char),
        (∀ l ∈ ls, trimChars l ≠ endMark) → parseLcovLines ls = []) := by
  refine ⟨fun ls st h => foldl_lcovStep_fst h st,
    fun l rest st h => ?_,
    fun ls h => foldl_lcovStep_fst h ([], none)⟩
  rw [List.foldl_cons, lcovStep_sf h]

/-- C7 witness: a single record missing its end marker yields `[]`, and an
`SF:` line wipes out a previously open record. -/
theorem unclosed_record_discarded_witness :
    parseLcovLines ["SF:a".toList, "LF:5".toList] = [] ∧
      ["SF:b".toList].foldl lcovStep ([], some (freshTally ("a".toList))) =
        [].foldl lcovStep (([], some (freshTally ("a".toList))).1,
          some (freshTally ((trimChars ("SF:b".toList)).drop 3))) := by
  constructor
  · exact unclosed_record_discarded.2.2 _ (by decide)
  · exact unclosed_record_discarded.2.1 ("SF:b".toList) []
      ([], some (freshTally ("a".toList))) (by decide)

/-- C1 (code bug): a counter line whose value part is non-numeric stores
`parseInt`'s `NaN` in the tally, not `0`: in a record with `LF:abc` and all
other counters numeric, the emitted `linesFound` is `NaN` (`none`), while
the other fields are as given.  The repository's own parser test suite
asserts that malformed values "default to 0". -/
theorem lf_non_numeric_yields_nan :
    parseLcov ("SF:x\nLF:abc\nLH:5\nFNF:6\nFNH:7\nBRF:8\nBRH:9\nend_of_record").toList =
      [{ file := "x".toList, linesFound := none, linesHit := some 5,
         functionsFound := some 6, functionsHit := some 7,
         branchesFound := some 8, branchesHit := some 9 }] := by
  decide

/-! ## Round-trip on well-formed records (C3) -/

theorem isPrefixOf_false_of_second_ne {a c d : Char} {as bs : List Char} (h : c ≠ d) :
    (a :: c :: as).isPrefixOf (a :: d :: bs) = false := by
  simp [List.isPrefixOf_cons₂, h]

theorem isPrefixOf_false_of_third_ne {a b c d : Char} {as bs : List Char} (h : c ≠ d) :
    (a :: b :: c :: as).isPrefixOf (a :: b :: d :: bs) = false := by
  simp [List.isPrefixOf_cons₂, h]

theorem dropWhile_eq_self_of_all {p : Char → Bool} {l : List Char}
    (h : ∀ c ∈ l, p c = false) : l.dropWhile p = l := by
  cases l with
  | nil => rfl
  | cons a t => rw [List.dropWhile_cons, h a (List.mem_cons_self _ _)]; simp

theorem takeWhile_eq_self_of_all {p : Char → Bool} {l : List Char}
    (h : ∀ c ∈ l, p c = true) : l.takeWhile p = l := by
  induction l with
  | nil => rfl
  | cons a t ih =>
    rw [List.takeWhile_cons, h a (List.mem_cons_self _ _)]
    simp [ih (fun c hc => h c (List.mem_cons_of_mem _ hc))]

theorem trimChars_eq_self_of_no_ws {l : List Char}
    (h : ∀ c ∈ l, c.isWhitespace = false) : trimChars l = l := by
  unfold trimChars
  rw [dropWhile_eq_self_of_all h,
    dropWhile_eq_self_of_all (fun c hc => h c (List.mem_reverse.mp hc)),
    List.reverse_reverse]

theorem digitChar_facts {d : ℕ} (h : d < 10) :
    (Nat.digitChar d).isDigit = true ∧ (Nat.digitChar d).isWhitespace = false ∧
      (Nat.digitChar d).toNat - 48 = d ∧ Nat.digitChar d ≠ '-' ∧
      Nat.digitChar d ≠ '+' := by
  interval_cases d <;> refine ⟨rfl, rfl, rfl, by decide, by decide⟩

theorem renderNat_facts (n : ℕ) :
    ∀ c ∈ renderNat n, c.isDigit = true ∧ c.isWhitespace = false ∧
      c ≠ '-' ∧ c ≠ '+' := by
  intro c hc
  unfold renderNat at hc
  by_cases h : n = 0
  · rw [if_pos h] at hc
    simp at hc
    subst hc
    exact ⟨rfl, rfl, by decide, by decide⟩
  · rw [if_neg h] at hc
    obtain ⟨d, hd, rfl⟩ := List.mem_map.mp hc
    have : d < 10 := Nat.digits_lt_base (by norm_num) (List.mem_reverse.mp hd)
    obtain ⟨h1, h2, _, h4, h5⟩ := digitChar_facts this
    exact ⟨h1, h2, h4, h5⟩

theorem foldl_digitChars (L : List ℕ) (hL : ∀ d ∈ L, d < 10) :
    ∀ acc : ℕ, (L.reverse.map Nat.digitChar).foldl
        (fun a c => 10 * a + (c.toNat - 48)) acc =
      acc * 10 ^ L.length + Nat.ofDigits 10 L := by
  induction L with
  | nil => intro acc; simp
  | cons d L ih =>
    intro acc
    rw [List.reverse_cons, List.map_append, List.foldl_append]
    rw [ih (fun x hx => hL x (List.mem_cons_of_mem _ hx))]
    have hd : (Nat.digitChar d).toNat - 48 = d :=
      (digitChar_facts (hL d (List.mem_cons_self _ _))).2.2.1
    simp only [List.map_cons, List.map_nil, List.foldl_cons, List.foldl_nil, hd]
    rw [Nat.ofDigits_cons]
    simp only [List.length_cons, pow_succ]
    ring

theorem renderNat_ne_nil (n : ℕ) : renderNat n ≠ [] := by
  unfold renderNat
  by_cases h : n = 0
  · rw [if_pos h]; simp
  · rw [if_neg h]
    simp [Nat.digits_ne_nil_iff_ne_zero.mpr h]

theorem digitsVal_renderNat (n : ℕ) : digitsVal (renderNat n) = some n := by
  unfold digitsVal
  rw [takeWhile_eq_self_of_all (fun c hc => (renderNat_facts n c hc).1)]
  rw [if_neg (by simpa using renderNat_ne_nil n)]
  by_cases h : n = 0
  · subst h; rfl
  · unfold renderNat
    rw [if_neg h]
    rw [foldl_digitChars _ (fun d hd => Nat.digits_lt_base (by norm_num) hd) 0]
    simp [Nat.ofDigits_digits]

theorem jsParseInt_renderNat (n : ℕ) : jsParseInt (renderNat n) = some (n : ℚ) := by
  have hall := renderNat_facts n
  have ht : (renderNat n).dropWhile Char.isWhitespace = renderNat n :=
    dropWhile_eq_self_of_all (fun c hc => (hall c hc).2.1)
  obtain ⟨c, rest, hcr⟩ : ∃ c rest, renderNat n = c :: rest := by
    cases hl : renderNat n with
    | nil => exact absurd hl (renderNat_ne_nil n)
    | cons a t => exact ⟨a, t, rfl⟩
  have hc : c ∈ renderNat n := by rw [hcr]; exact List.mem_cons_self _ _
  have hminus : c ≠ '-' := (hall c hc).2.2.1
  have hplus : c ≠ '+' := (hall c hc).2.2.2
  have ht2 := ht
  rw [hcr] at ht2
  simp only [jsParseInt, hcr, ht2, List.head?_cons, Option.some.injEq]
  rw [if_neg hminus, if_neg hplus]
  rw [← hcr, digitsVal_renderNat]
  rfl

theorem trim_mark_line {m ds : List Char} (hm : ∀ c ∈ m, c.isWhitespace = false)
    (hds : ∀ c ∈ ds, c.isWhitespace = false) : trimChars (m ++ ds) = m ++ ds :=
  trimChars_eq_self_of_no_ws (by
    intro c hc
    rcases List.mem_append.mp hc with h | h
    exacts [hm c h, hds c h])

theorem lcovStep_sf_line (st : List LcovFileData × Option LcovFileData)
    (p : List Char) (hp : trimChars (sfMark ++ p) = sfMark ++ p) :
    lcovStep st (sfMark ++ p) = (st.1, some (freshTally p)) := by
  have h1 : sfMark.isPrefixOf (sfMark ++ p) = true := by
    rw [List.isPrefixOf_iff_prefix]; exact List.prefix_append _ _
  have h2 : (sfMark ++ p).drop 3 = p := List.drop_left' rfl
  rw [lcovStep_sf (by rw [hp]; exact h1), hp, h2]

theorem lcovStep_lf_line (fs : List LcovFileData) (c : LcovFileData)
    (ds : List Char) (hds : ∀ x ∈ ds, x.isWhitespace = false) :
    lcovStep (fs, some c) (lfMark ++ ds) =
      (fs, some { c with linesFound := jsParseInt ds }) := by
  have htrim : trimChars (lfMark ++ ds) = lfMark ++ ds := trim_mark_line (by decide) hds
  have h0 : sfMark.isPrefixOf (lfMark ++ ds) = false :=
    isPrefixOf_false_of_head_ne (by decide)
  have h1 : lfMark.isPrefixOf (lfMark ++ ds) = true := by
    rw [List.isPrefixOf_iff_prefix]; exact List.prefix_append _ _
  have h2 : (lfMark ++ ds).drop 3 = ds := List.drop_left' rfl
  simp [lcovStep, htrim, h0, h1, h2]

theorem lcovStep_lh_line (fs : List LcovFileData) (c : LcovFileData)
    (ds : List Char) (hds : ∀ x ∈ ds, x.isWhitespace = false) :
    lcovStep (fs, some c) (lhMark ++ ds) =
      (fs, some { c with linesHit := jsParseInt ds }) := by
  have htrim : trimChars (lhMark ++ ds) = lhMark ++ ds := trim_mark_line (by decide) hds
  have h0 : sfMark.isPrefixOf (lhMark ++ ds) = false :=
    isPrefixOf_false_of_head_ne (by decide)
  have h1 : lfMark.isPrefixOf (lhMark ++ ds) = false :=
    isPrefixOf_false_of_second_ne (by decide)
  have h2 : lhMark.isPrefixOf (lhMark ++ ds) = true := by
    rw [List.isPrefixOf_iff_prefix]; exact List.prefix_append _ _
  have h3 : (lhMark ++ ds).drop 3 = ds := List.drop_left' rfl
  simp [lcovStep, htrim, h0, h1, h2, h3]

theorem lcovStep_fnf_line (fs : List LcovFileData) (c : LcovFileData)
    (ds : List Char) (hds : ∀ x ∈ ds, x.isWhitespace = false) :
    lcovStep (fs, some c) (fnfMark ++ ds) =
      (fs, some { c with functionsFound := jsParseInt ds }) := by
  have htrim : trimChars (fnfMark ++ ds) = fnfMark ++ ds := trim_mark_line (by decide) hds
  have h0 : sfMark.isPrefixOf (fnfMark ++ ds) = false :=
    isPrefixOf_false_of_head_ne (by decide)
  have h1 : lfMark.isPrefixOf (fnfMark ++ ds) = false :=
    isPrefixOf_false_of_head_ne (by decide)
  have h2 : lhMark.isPrefixOf (fnfMark ++ ds) = false :=
    isPrefixOf_false_of_head_ne (by decide)
  have h3 : fnfMark.isPrefixOf (fnfMark ++ ds) = true := by
    rw [List.isPrefixOf_iff_prefix]; exact List.prefix_append _ _
  have h4 : (fnfMark ++ ds).drop 4 = ds := List.drop_left' rfl
  simp [lcovStep, htrim, h0, h1, h2, h3, h4]

theorem lcovStep_fnh_line (fs : List LcovFileData) (c : LcovFileData)
    (ds : List Char) (hds : ∀ x ∈ ds, x.isWhitespace = false) :
    lcovStep (fs, some c) (fnhMark ++ ds) =
      (fs, some { c with functionsHit := jsParseInt ds }) := by
  have htrim : trimChars (fnhMark ++ ds) = fnhMark ++ ds := trim_mark_line (by decide) hds
  have h0 : sfMark.isPrefixOf (fnhMark ++ ds) = false :=
    isPrefixOf_false_of_head_ne (by decide)
  have h1 : lfMark.isPrefixOf (fnhMark ++ ds) = false :=
    isPrefixOf_false_of_head_ne (by decide)
  have h2 : lhMark.isPrefixOf (fnhMark ++ ds) = false :=
    isPrefixOf_false_of_head_ne (by decide)
  have h3 : fnfMark.isPrefixOf (fnhMark ++ ds) = false :=
    isPrefixOf_false_of_third_ne (by decide)
  have h4 : fnhMark.isPrefixOf (fnhMark ++ ds) = true := by
    rw [List.isPrefixOf_iff_prefix]; exact List.prefix_append _ _
  have h5 : (fnhMark ++ ds).drop 4 = ds := List.drop_left' rfl
  simp [lcovStep, htrim, h0, h1, h2, h3, h4, h5]

theorem lcovStep_brf_line (fs : List LcovFileData) (c : LcovFileData)
    (ds : List Char) (hds : ∀ x ∈ ds, x.isWhitespace = false) :
    lcovStep (fs, some c) (brfMark ++ ds) =
      (fs, some { c with branchesFound := jsParseInt ds }) := by
  have htrim : trimChars (brfMark ++ ds) = brfMark ++ ds := trim_mark_line (by decide) hds
  have h0 : sfMark.isPrefixOf (brfMark ++ ds) = false :=
    isPrefixOf_false_of_head_ne (by decide)
  have h1 : lfMark.isPrefixOf (brfMark ++ ds) = false :=
    isPrefixOf_false_of_head_ne (by decide)
  have h2 : lhMark.isPrefixOf (brfMark ++ ds) = false :=
    isPrefixOf_false_of_head_ne (by decide)
  have h3 : fnfMark.isPrefixOf (brfMark ++ ds) = false :=
    isPrefixOf_false_of_head_ne (by decide)
  have h4 : fnhMark.isPrefixOf (brfMark ++ ds) = false :=
    isPrefixOf_false_of_head_ne (by decide)
  have h5 : brfMark.isPrefixOf (brfMark ++ ds) = true := by
    rw [List.isPrefixOf_iff_prefix]; exact List.prefix_append _ _
  have h6 : (brfMark ++ ds).drop 4 = ds := List.drop_left' rfl
  simp [lcovStep, htrim, h0, h1, h2, h3, h4, h5, h6]

theorem lcovStep_brh_line (fs : List LcovFileData) (c : LcovFileData)
    (ds : List Char) (hds : ∀ x ∈ ds, x.isWhitespace = false) :
    lcovStep (fs, some c) (brhMark ++ ds) =
      (fs, some { c with branchesHit := jsParseInt ds }) := by
  have htrim : trimChars (brhMark ++ ds) = brhMark ++ ds := trim_mark_line (by decide) hds
  have h0 : sfMark.isPrefixOf (brhMark ++ ds) = false :=
    isPrefixOf_false_of_head_ne (by decide)
  have h1 : lfMark.isPrefixOf (brhMark ++ ds) = false :=
    isPrefixOf_false_of_head_ne (by decide)
  have h2 : lhMark.isPrefixOf (brhMark ++ ds) = false :=
    isPrefixOf_false_of_head_ne (by decide)
  have h3 : fnfMark.isPrefixOf (brhMark ++ ds) = false :=
    isPrefixOf_false_of_head_ne (by decide)
  have h4 : fnhMark.isPrefixOf (brhMark ++ ds) = false :=
    isPrefixOf_false_of_head_ne (by decide)
  have h5 : brfMark.isPrefixOf (brhMark ++ ds) = false :=
    isPrefixOf_false_of_third_ne (by decide)
  have h6 : brhMark.isPrefixOf (brhMark ++ ds) = true := by
    rw [List.isPrefixOf_iff_prefix]; exact List.prefix_append _ _
  have h7 : (brhMark ++ ds).drop 4 = ds := List.drop_left' rfl
  simp [lcovStep, htrim, h0, h1, h2, h3, h4, h5, h6, h7]

theorem foldl_renderRecord (r : LcovRecord) (fs : List LcovFileData)
    (cur : Option LcovFileData)
    (hpath : trimChars (sfMark ++ r.path) = sfMark ++ r.path) :
    (renderRecord r).foldl lcovStep (fs, cur) = (fs ++ [recordTally r], none) := by
  simp only [renderRecord, List.foldl_cons, List.foldl_nil]
  rw [lcovStep_sf_line (fs, cur) r.path hpath]
  rw [lcovStep_lf_line _ _ _ (fun x hx => (renderNat_facts r.lf x hx).2.1)]
  rw [lcovStep_lh_line _ _ _ (fun x hx => (renderNat_facts r.lh x hx).2.1)]
  rw [lcovStep_fnf_line _ _ _ (fun x hx => (renderNat_facts r.fnf x hx).2.1)]
  rw [lcovStep_fnh_line _ _ _ (fun x hx => (renderNat_facts r.fnh x hx).2.1)]
  rw [lcovStep_brf_line _ _ _ (fun x hx => (renderNat_facts r.brf x hx).2.1)]
  rw [lcovStep_brh_line _ _ _ (fun x hx => (renderNat_facts r.brh x hx).2.1)]
  rw [lcovStep_endMark]
  simp [recordTally, freshTally, jsParseInt_renderNat]

theorem foldl_records (recs : List LcovRecord)
    (h : ∀ r ∈ recs, trimChars (sfMark ++ r.path) = sfMark ++ r.path) :
    ∀ (fs : List LcovFileData) (cur : Option LcovFileData),
      ((recs.map renderRecord).flatten.foldl lcovStep (fs, cur)).1 =
        fs ++ recs.map recordTally := by
  induction recs with
  | nil => intro fs cur; simp
  | cons r rs ih =>
    intro fs cur
    rw [List.map_cons, List.flatten_cons, List.foldl_append,
      foldl_renderRecord r fs cur (h r (List.mem_cons_self _ _))]
    rw [ih (fun x hx => h x (List.mem_cons_of_mem _ hx))]
    simp

theorem parseLcovLines_renders :
    ∀ recs : List LcovRecord,
      (∀ r ∈ recs, trimChars (sfMark ++ r.path) = sfMark ++ r.path) →
      parseLcovLines (recs.map renderRecord).flatten = recs.map recordTally := by
  intro recs h
  show ((recs.map renderRecord).flatten.foldl lcovStep ([], none)).1 = _
  rw [foldl_records recs h [] none]
  rfl

theorem newline_not_mem_renderNat (n : ℕ) : '\n' ∉ renderNat n := fun h =>
  absurd ((renderNat_facts n _ h).1) (by decide)

theorem newline_not_mem_renderRecord {r : LcovRecord} (hnl : '\n' ∉ r.path) :
    ∀ l ∈ renderRecord r, '\n' ∉ l := by
  intro l hl
  simp only [renderRecord, List.mem_cons, List.not_mem_nil, or_false] at hl
  rcases hl with rfl | rfl | rfl | rfl | rfl | rfl | rfl | rfl
  · intro hmem
    rcases List.mem_append.mp hmem with hm | hm
    · revert hm; decide
    · exact hnl hm
  · intro hmem
    rcases List.mem_append.mp hmem with hm | hm
    · revert hm; decide
    · exact newline_not_mem_renderNat _ hm
  · intro hmem
    rcases List.mem_append.mp hmem with hm | hm
    · revert hm; decide
    · exact newline_not_mem_renderNat _ hm
  · intro hmem
    rcases List.mem_append.mp hmem with hm | hm
    · revert hm; decide
    · exact newline_not_mem_renderNat _ hm
  · intro hmem
    rcases List.mem_append.mp hmem with hm | hm
    · revert hm; decide
    · exact newline_not_mem_renderNat _ hm
  · intro hmem
    rcases List.mem_append.mp hmem with hm | hm
    · revert hm; decide
    · exact newline_not_mem_renderNat _ hm
  · intro hmem
    rcases List.mem_append.mp hmem with hm | hm
    · revert hm; decide
    · exact newline_not_mem_renderNat _ hm
  · decide

/-- C3: round-trip on well-formed input.  Rendering any list of records
(each an `SF:` path line, six decimal counter lines, and `end_of_record`)
and parsing back yields exactly one tally per record, in input order, with
the path and all six counters matching exactly.  The first conjunct states
this for the line-level machine; the second for `parseLcov` itself, on the
newline-joined text, for a non-empty record list.  The hypotheses state
that each record's path contains no newline and that its `SF:` line is
invariant under trimming (a path ending in whitespace would not survive
the line-level trim). -/
theorem parse_wellformed_roundtrip :
    (∀ recs : List LcovRecord,
      (∀ r ∈ recs, trimChars (sfMark ++ r.path) = sfMark ++ r.path) →
      parseLcovLines (recs.map renderRecord).flatten = recs.map recordTally) ∧
    (∀ recs : List LcovRecord, recs ≠ [] →
      (∀ r ∈ recs, trimChars (sfMark ++ r.path) = sfMark ++ r.path) →
      (∀ r ∈ recs, '\n' ∉ r.path) →
      parseLcov (['\n'].intercalate (recs.map renderRecord).flatten) =
        recs.map recordTally) := by
  refine ⟨parseLcovLines_renders, fun recs hne htrim hnl => ?_⟩
  unfold parseLcov
  rw [List.splitOn_intercalate _ '\n' ?hx ?hls]
  · exact parseLcovLines_renders recs htrim
  case hx =>
    intro l hl
    obtain ⟨ls, hls', hl⟩ := List.mem_flatten.mp hl
    obtain ⟨r, hr, rfl⟩ := List.mem_map.mp hls'
    exact newline_not_mem_renderRecord (hnl r hr) l hl
  case hls =>
    cases recs with
    | nil => exact absurd rfl hne
    | cons r rs => simp [renderRecord]

/-- C3 witness: two concrete records round-trip through `parseLcov`. -/
theorem parse_wellformed_roundtrip_witness :
    parseLcov (['\n'].intercalate
        (([⟨"a.ts".toList, 10, 8, 3, 2, 4, 1⟩,
           ⟨"b.ts".toList, 0, 0, 0, 0, 0, 0⟩] : List LcovRecord).map
          renderRecord).flatten) =
      [recordTally ⟨"a.ts".toList, 10, 8, 3, 2, 4, 1⟩,
       recordTally ⟨"b.ts".toList, 0, 0, 0, 0, 0, 0⟩] :=
  parse_wellformed_roundtrip.2 _ (by decide) (by decide) (by decide)

/-! ## Analyzer theorems -/

/-- C9: the `overall` summary of `analyzeCoverage` is computed over the
unfiltered tally list, so it is identical for any two values of `minLines`
(and of `top`), and its `fileCount` is the number of parsed tallies, not
the filtered count. -/
theorem overall_independent_of_filter :
    ∀ (l10 : ℚ → ℚ) (files : List LcovFileData) (weights : PriorityWeights)
      (m1 m2 : ℚ) (t1 t2 : Option ℤ),
      (analyzeCoverage l10 files weights m1 t1).overall =
        (analyzeCoverage l10 files weights m2 t2).overall ∧
      (analyzeCoverage l10 files weights m1 t1).overall.fileCount =
        files.length := by
  intro l10 files w m1 m2 t1 t2
  exact ⟨rfl, rfl⟩

theorem covStore_zero {found : JSNum} (hit : JSNum) (hf : found = some 0) :
    jsDiv (jsRound (jsMul
        (if jsGtB found 0 then jsMul (jsDiv hit found) (some 100) else some 100)
        (some 100))) (some 100) = some 100 := by
  subst hf
  rw [show jsGtB (some 0) 0 = false from rfl]
  simp only [Bool.false_eq_true, if_false]
  decide

theorem covStore_pos {found hit : JSNum} {lf lh : ℚ} (hpos : 0 < lf)
    (hf : found = some lf) (hh : hit = some lh) :
    jsDiv (jsRound (jsMul
        (if jsGtB found 0 then jsMul (jsDiv hit found) (some 100) else some 100)
        (some 100))) (some 100) = some (round2 (lh / lf * 100)) := by
  subst hf hh
  rw [show jsGtB (some lf) 0 = true by simp [jsGtB, hpos]]
  simp only [if_true]
  rw [show jsDiv (some lh) (some lf) = some (lh / lf) by
    simp [jsDiv, ne_of_gt hpos]]
  simp [jsMul, jsRound, jsDiv, round2]

theorem overallPct_zero (hit : JSNum) : overallPct (some 0) hit = some 100 := by
  unfold overallPct
  rw [show jsGtB (some 0) 0 = false from rfl]
  simp

theorem overallPct_pos {s h : ℚ} (hs : 0 < s) :
    overallPct (some s) (some h) = some (round2 (h / s * 100)) := by
  unfold overallPct
  rw [show jsGtB (some s) 0 = true by simp [jsGtB, hs]]
  simp only [if_true]
  rw [show jsDiv (some h) (some s) = some (h / s) by simp [jsDiv, ne_of_gt hs]]
  simp only [jsMul, jsRound, jsDiv, Option.map_some', round2]
  norm_num
  rw [show h / s * 100 * 100 = h / s * 10000 by ring]

/-- C8: in every category, per file and in the aggregate, a zero `found`
yields a coverage of exactly `100` — a finite value, never `NaN` — and a
positive `found` yields `hit / found * 100` rounded to two decimals; the
division is evaluated only under the positivity guard. -/
theorem coverage_zero_denominator :
    (∀ (l10 : ℚ → ℚ) (f : LcovFileData) (w : PriorityWeights),
      (f.linesFound = some 0 → (analyzeFile l10 f w).lines.coverage = some 100) ∧
      (f.functionsFound = some 0 →
        (analyzeFile l10 f w).functions.coverage = some 100) ∧
      (f.branchesFound = some 0 →
        (analyzeFile l10 f w).branches.coverage = some 100) ∧
      (∀ lf lh : ℚ, 0 < lf → f.linesFound = some lf → f.linesHit = some lh →
        (analyzeFile l10 f w).lines.coverage = some (round2 (lh / lf * 100))) ∧
      (∀ ff fh : ℚ, 0 < ff → f.functionsFound = some ff →
        f.functionsHit = some fh →
        (analyzeFile l10 f w).functions.coverage = some (round2 (fh / ff * 100))) ∧
      (∀ bf bh : ℚ, 0 < bf → f.branchesFound = some bf →
        f.branchesHit = some bh →
        (analyzeFile l10 f w).branches.coverage = some (round2 (bh / bf * 100)))) ∧
    (∀ files : List LcovFileData,
      ((files.foldl addTotals zeroTotals).linesFound = some 0 →
        (calculateOverallCoverage files).lines.coverage = some 100) ∧
      ((files.foldl addTotals zeroTotals).functionsFound = some 0 →
        (calculateOverallCoverage files).functions.coverage = some 100) ∧
      ((files.foldl addTotals zeroTotals).branchesFound = some 0 →
        (calculateOverallCoverage files).branches.coverage = some 100) ∧
      (∀ s h : ℚ, 0 < s → (files.foldl addTotals zeroTotals).linesFound = some s →
        (files.foldl addTotals zeroTotals).linesHit = some h →
        (calculateOverallCoverage files).lines.coverage = some (round2 (h / s * 100))) ∧
      (∀ s h : ℚ, 0 < s →
        (files.foldl addTotals zeroTotals).functionsFound = some s →
        (files.foldl addTotals zeroTotals).functionsHit = some h →
        (calculateOverallCoverage files).functions.coverage =
          some (round2 (h / s * 100))) ∧
      (∀ s h : ℚ, 0 < s →
        (files.foldl addTotals zeroTotals).branchesFound = some s →
        (files.foldl addTotals zeroTotals).branchesHit = some h →
        (calculateOverallCoverage files).branches.coverage =
          some (round2 (h / s * 100)))) := by
  constructor
  · intro l10 f w
    refine ⟨fun h => covStore_zero f.linesHit h,
      fun h => covStore_zero f.functionsHit h,
      fun h => covStore_zero f.branchesHit h,
      fun lf lh hpos hf hh => covStore_pos hpos hf hh,
      fun ff fh hpos hf hh => covStore_pos hpos hf hh,
      fun bf bh hpos hf hh => covStore_pos hpos hf hh⟩
  · intro files
    refine ⟨fun h => ?_, fun h => ?_, fun h => ?_,
      fun s hh hpos hf hht => ?_, fun s hh hpos hf hht => ?_,
      fun s hh hpos hf hht => ?_⟩
    · show overallPct (files.foldl addTotals zeroTotals).linesFound
        (files.foldl addTotals zeroTotals).linesHit = some 100
      rw [h, overallPct_zero]
    · show overallPct (files.foldl addTotals zeroTotals).functionsFound
        (files.foldl addTotals zeroTotals).functionsHit = some 100
      rw [h, overallPct_zero]
    · show overallPct (files.foldl addTotals zeroTotals).branchesFound
        (files.foldl addTotals zeroTotals).branchesHit = some 100
      rw [h, overallPct_zero]
    · show overallPct (files.foldl addTotals zeroTotals).linesFound
        (files.foldl addTotals zeroTotals).linesHit = _
      rw [hf, hht, overallPct_pos hpos]
    · show overallPct (files.foldl addTotals zeroTotals).functionsFound
        (files.foldl addTotals zeroTotals).functionsHit = _
      rw [hf, hht, overallPct_pos hpos]
    · show overallPct (files.foldl addTotals zeroTotals).branchesFound
        (files.foldl addTotals zeroTotals).branchesHit = _
      rw [hf, hht, overallPct_pos hpos]

/-- C8 witness: a file with zero branches found is 100% branch-covered; a
file with 3 functions found and 1 hit is 33.33% function-covered; the
aggregate over one such file behaves the same. -/
theorem coverage_zero_denominator_witness :
    (analyzeFile (fun _ => 1)
        { file := [], linesFound := some 10, linesHit := some 5,
          functionsFound := some 3, functionsHit := some 1,
          branchesFound := some 0, branchesHit := some 0 }
        { lines := 1, functions := 1, branches := 1 }).branches.coverage =
      some 100 ∧
    (analyzeFile (fun _ => 1)
        { file := [], linesFound := some 10, linesHit := some 5,
          functionsFound := some 3, functionsHit := some 1,
          branchesFound := some 0, branchesHit := some 0 }
        { lines := 1, functions := 1, branches := 1 }).functions.coverage =
      some (3333/100) ∧
    (calculateOverallCoverage
        [{ file := [], linesFound := some 10, linesHit := some 5,
           functionsFound := some 3, functionsHit := some 1,
           branchesFound := some 0, branchesHit := some 0 }]).branches.coverage =
      some 100 := by
  refine ⟨(coverage_zero_denominator.1 (fun _ => 1) _ _).2.2.1 rfl,
    ((coverage_zero_denominator.1 (fun _ => 1) _
      { lines := 1, functions := 1, branches := 1 }).2.2.2.2.1 3 1
        (by norm_num) rfl rfl).trans (by decide),
    (coverage_zero_denominator.2 _).2.2.1 (by decide)⟩

theorem covNum (found hit : ℚ) :
    (if jsGtB (some found) 0 then jsMul (jsDiv (some hit) (some found)) (some 100)
     else some 100) = some (specCoveragePct found hit) := by
  by_cases h : 0 < found
  · rw [show jsGtB (some found) 0 = true by simp [jsGtB, h]]
    simp [jsDiv, jsMul, specCoveragePct, h, ne_of_gt h]
  · rw [show jsGtB (some found) 0 = false by simp [jsGtB, h]]
    simp [specCoveragePct, h]

/-- C2: for every tally with finite fields and every weights triple, the
stored `priorityScore` is exactly the specification's formula — the
weighted sum of the three gaps `100 - coveragePercent` (computed from the
unrounded percentages, with a zero-`found` category contributing gap `0`)
scaled by `log10(max(linesFound, 1) + 1)` — rounded to two decimal places,
and each stored coverage percentage is the unrounded percentage rounded to
two decimal places. -/
theorem priorityScore_formula :
    ∀ (l10 : ℚ → ℚ) (f : LcovFileData) (w : PriorityWeights)
      (lf lh fnf fnh brf brh : ℚ),
      f.linesFound = some lf → f.linesHit = some lh →
      f.functionsFound = some fnf → f.functionsHit = some fnh →
      f.branchesFound = some brf → f.branchesHit = some brh →
      (analyzeFile l10 f w).priorityScore =
        some (round2 (specPriorityScore l10 lf lh fnf fnh brf brh w)) ∧
      (analyzeFile l10 f w).lines.coverage =
        some (round2 (specCoveragePct lf lh)) ∧
      (analyzeFile l10 f w).functions.coverage =
        some (round2 (specCoveragePct fnf fnh)) ∧
      (analyzeFile l10 f w).branches.coverage =
        some (round2 (specCoveragePct brf brh)) := by
  intro l10 f w lf lh fnf fnh brf brh h1 h2 h3 h4 h5 h6
  obtain ⟨file, lfj, lhj, fnfj, fnhj, brfj, brhj⟩ := f
  simp only at h1 h2 h3 h4 h5 h6
  subst h1 h2 h3 h4 h5 h6
  simp only [analyzeFile, covNum]
  refine ⟨?_, ?_, ?_, ?_⟩
  · simp [jsSub, jsAdd, jsMul, jsMax, jsRound, jsDiv, round2,
      specPriorityScore, specGap]
  · simp [jsMul, jsRound, jsDiv, round2]
  · simp [jsMul, jsRound, jsDiv, round2]
  · simp [jsMul, jsRound, jsDiv, round2]

/-- C2 witness: with weights `{lines: 0.2, functions: 0.3, branches: 0.5}`,
a 100-line file at 50% coverage in all categories and `log10` stubbed to
`1` scores exactly `50`. -/
theorem priorityScore_formula_witness :
    (analyzeFile (fun _ => 1)
        { file := [], linesFound := some 100, linesHit := some 50,
          functionsFound := some 10, functionsHit := some 5,
          branchesFound := some 20, branchesHit := some 10 }
        { lines := 1/5, functions := 3/10, branches := 1/2 }).priorityScore =
      some (round2 (specPriorityScore (fun _ => 1) 100 50 10 5 20 10
        { lines := 1/5, functions := 3/10, branches := 1/2 })) ∧
    round2 (specPriorityScore (fun _ => 1) 100 50 10 5 20 10
        { lines := 1/5, functions := 3/10, branches := 1/2 }) = 50 :=
  ⟨(priorityScore_formula (fun _ => 1) _ _ 100 50 10 5 20 10
      rfl rfl rfl rfl rfl rfl).1, by decide⟩

theorem round2_nonneg {q : ℚ} (h : 0 ≤ q) : 0 ≤ round2 q := by
  unfold round2
  apply div_nonneg _ (by norm_num)
  exact_mod_cast Int.le_floor.mpr (by push_cast; linarith)

theorem specGap_nonneg {found hit : ℚ} (h : hit ≤ found) :
    0 ≤ specGap found hit := by
  unfold specGap specCoveragePct
  split_ifs with hf
  · have hd : hit / found ≤ 1 := (div_le_one hf).mpr h
    nlinarith
  · norm_num

/-- C6 is refuted: the claim "for every tally with non-negative integer
fields (with `hit` not required to be at most `found`) and non-negative
weights the priority score is non-negative" is false.  A tally with
`linesHit > linesFound` has line coverage above 100%, hence a negative line
gap, and with line weight `1` the score is negative.  `l10` ranges over
functions positive on `[2, ∞)`, as the real `log10` is. -/
theorem priorityScore_nonneg_cex :
    ¬ (∀ l10 : ℚ → ℚ, (∀ q : ℚ, 2 ≤ q → 0 < l10 q) →
        ∀ (f : LcovFileData) (w : PriorityWeights)
          (lf lh fnf fnh brf brh : ℕ),
          f.linesFound = some (lf : ℚ) → f.linesHit = some (lh : ℚ) →
          f.functionsFound = some (fnf : ℚ) → f.functionsHit = some (fnh : ℚ) →
          f.branchesFound = some (brf : ℚ) → f.branchesHit = some (brh : ℚ) →
          0 ≤ w.lines → 0 ≤ w.functions → 0 ≤ w.branches →
          ∀ s : ℚ, (analyzeFile l10 f w).priorityScore = some s → 0 ≤ s) := by
  intro hcl
  have h := hcl (fun _ => 1) (fun _ _ => one_pos)
    { file := [], linesFound := some 10, linesHit := some 20,
      functionsFound := some 0, functionsHit := some 0,
      branchesFound := some 0, branchesHit := some 0 }
    { lines := 1, functions := 0, branches := 0 }
    10 20 0 0 0 0 (by norm_num) (by norm_num) (by norm_num) (by norm_num)
    (by norm_num) (by norm_num) (by norm_num) (by norm_num) (by norm_num)
    (-100) (by decide)
  norm_num at h

/-- C6 amended: the priority score is non-negative provided additionally
`hit ≤ found` in each of the three categories (the unamended claim fails
exactly when some `hit` exceeds its `found`).  `l10` ranges over functions
non-negative on `[2, ∞)`, as the real `log10` is. -/
theorem priorityScore_nonneg :
    ∀ l10 : ℚ → ℚ, (∀ q : ℚ, 2 ≤ q → 0 ≤ l10 q) →
    ∀ (f : LcovFileData) (w : PriorityWeights) (lf lh fnf fnh brf brh : ℕ),
      f.linesFound = some (lf : ℚ) → f.linesHit = some (lh : ℚ) →
      f.functionsFound = some (fnf : ℚ) → f.functionsHit = some (fnh : ℚ) →
      f.branchesFound = some (brf : ℚ) → f.branchesHit = some (brh : ℚ) →
      lh ≤ lf → fnh ≤ fnf → brh ≤ brf →
      0 ≤ w.lines → 0 ≤ w.functions → 0 ≤ w.branches →
      ∀ s : ℚ, (analyzeFile l10 f w).priorityScore = some s → 0 ≤ s := by
  intro l10 hl10 f w lf lh fnf fnh brf brh h1 h2 h3 h4 h5 h6 hll hff hbb
    hwl hwf hwb s hs
  rw [(priorityScore_formula l10 f w lf lh fnf fnh brf brh
    h1 h2 h3 h4 h5 h6).1] at hs
  cases Option.some.inj hs
  apply round2_nonneg
  unfold specPriorityScore
  have harg : (2 : ℚ) ≤ max (lf : ℚ) 1 + 1 := by
    have := le_max_right (lf : ℚ) 1
    linarith
  apply mul_nonneg _ (hl10 _ harg)
  have g1 := specGap_nonneg (Nat.cast_le.mpr hll)
  have g2 := specGap_nonneg (Nat.cast_le.mpr hff)
  have g3 := specGap_nonneg (Nat.cast_le.mpr hbb)
  have := mul_nonneg g3 hwb
  have := mul_nonneg g2 hwf
  have := mul_nonneg g1 hwl
  linarith

/-- C6 amended witness: the 50%-covered 100-line file scores `50 ≥ 0`. -/
theorem priorityScore_nonneg_witness :
    (analyzeFile (fun _ => 1)
        { file := [], linesFound := some 100, linesHit := some 50,
          functionsFound := some 10, functionsHit := some 5,
          branchesFound := some 20, branchesHit := some 10 }
        { lines := 1/5, functions := 3/10, branches := 1/2 }).priorityScore =
      some 50 ∧ (0 : ℚ) ≤ 50 :=
  ⟨by decide,
    priorityScore_nonneg (fun _ => 1) (fun _ _ => by norm_num)
      { file := [], linesFound := some 100, linesHit := some 50,
        functionsFound := some 10, functionsHit := some 5,
        branchesFound := some 20, branchesHit := some 10 }
      { lines := 1/5, functions := 3/10, branches := 1/2 }
      100 50 10 5 20 10 (by norm_num) (by norm_num) (by norm_num)
      (by norm_num) (by norm_num) (by norm_num)
      (by norm_num) (by norm_num) (by norm_num)
      (by norm_num) (by norm_num) (by norm_num) 50 (by decide)⟩

theorem analyzedPipeline_sorted (l10 : ℚ → ℚ) (files : List LcovFileData)
    (w : PriorityWeights) (m : ℚ) :
    (analyzedPipeline l10 files w m).Pairwise
      (fun a b => b.priorityScore.getD 0 ≤ a.priorityScore.getD 0) := by
  have h := @List.sorted_mergeSort AnalyzedFile scoreDescB
    (fun a b c hab hbc => by
      simp only [scoreDescB, decide_eq_true_eq] at *
      exact le_trans hbc hab)
    (fun a b => by
      simp only [scoreDescB, Bool.or_eq_true, decide_eq_true_eq]
      exact le_total _ _)
    ((files.filter (fun f => jsGeB f.linesFound m)).map
      (fun f => analyzeFile l10 f w))
  exact h.imp (fun hab => by simpa [scoreDescB] using hab)

/-- C4 is refuted: a negative `top` is truthy in JavaScript, so the slice
is applied, and `slice(0, t)` with `t < 0` drops the last `|t|` entries
rather than performing no truncation: with two surviving files and
`top = -1` only one file is returned. -/
theorem top_negative_truncates_cex :
    ¬ (∀ (l10 : ℚ → ℚ) (files : List LcovFileData) (w : PriorityWeights)
        (m : ℚ) (t : ℤ), t < 0 →
        (analyzeCoverage l10 files w m (some t)).files =
          analyzedPipeline l10 files w m) := by
  intro hcl
  have h := hcl (fun _ => 1)
    [{ file := ['a'], linesFound := some 1, linesHit := some 1,
       functionsFound := some 0, functionsHit := some 0,
       branchesFound := some 0, branchesHit := some 0 },
     { file := ['b'], linesFound := some 2, linesHit := some 1,
       functionsFound := some 0, functionsHit := some 0,
       branchesFound := some 0, branchesHit := some 0 }]
    { lines := 1, functions := 1, branches := 1 } 0 (-1) (by norm_num)
  have hA : (analyzedPipeline (fun _ => 1)
      [{ file := ['a'], linesFound := some 1, linesHit := some 1,
         functionsFound := some 0, functionsHit := some 0,
         branchesFound := some 0, branchesHit := some 0 },
       { file := ['b'], linesFound := some 2, linesHit := some 1,
         functionsFound := some 0, functionsHit := some 0,
         branchesFound := some 0, branchesHit := some 0 }]
      { lines := 1, functions := 1, branches := 1 } 0).length = 2 := by
    unfold analyzedPipeline
    rw [List.length_mergeSort, List.length_map]
    decide
  have hstep : (analyzeCoverage (fun _ => 1)
      [{ file := ['a'], linesFound := some 1, linesHit := some 1,
         functionsFound := some 0, functionsHit := some 0,
         branchesFound := some 0, branchesHit := some 0 },
       { file := ['b'], linesFound := some 2, linesHit := some 1,
         functionsFound := some 0, functionsHit := some 0,
         branchesFound := some 0, branchesHit := some 0 }]
      { lines := 1, functions := 1, branches := 1 } 0 (some (-1))).files =
      jsSliceTo (analyzedPipeline (fun _ => 1)
        [{ file := ['a'], linesFound := some 1, linesHit := some 1,
           functionsFound := some 0, functionsHit := some 0,
           branchesFound := some 0, branchesHit := some 0 },
         { file := ['b'], linesFound := some 2, linesHit := some 1,
           functionsFound := some 0, functionsHit := some 0,
           branchesFound := some 0, branchesHit := some 0 }]
        { lines := 1, functions := 1, branches := 1 } 0) (-1) := rfl
  rw [hstep] at h
  have hlen := congrArg List.length h
  simp only [jsSliceTo] at hlen
  rw [if_neg (by norm_num), List.length_take, hA] at hlen
  norm_num at hlen

/-- C4 amended: `analyzeCoverage` returns the surviving files sorted in
descending order of their stored (rounded) priority score (pairwise, on the
score keys); when `top` is `null` or `0` no truncation is applied; when
`top` is a positive integer `k` the first `k` entries are kept; and when
`top` is a negative integer `k` the JavaScript `slice(0, k)` semantics
apply — the result is the survivors with the last `|k|` entries removed
(clamped at the empty list) — not the full list of survivors. -/
theorem top_truncation :
    ∀ (l10 : ℚ → ℚ) (files : List LcovFileData) (w : PriorityWeights) (m : ℚ)
      (t : Option ℤ),
      ((analyzeCoverage l10 files w m t).files).Pairwise
        (fun a b => b.priorityScore.getD 0 ≤ a.priorityScore.getD 0) ∧
      (t = none → (analyzeCoverage l10 files w m t).files =
        analyzedPipeline l10 files w m) ∧
      (t = some 0 → (analyzeCoverage l10 files w m t).files =
        analyzedPipeline l10 files w m) ∧
      (∀ k : ℤ, 0 < k → t = some k →
        (analyzeCoverage l10 files w m t).files =
          (analyzedPipeline l10 files w m).take k.toNat) ∧
      (∀ k : ℤ, k < 0 → t = some k →
        (analyzeCoverage l10 files w m t).files =
          (analyzedPipeline l10 files w m).take
            (((analyzedPipeline l10 files w m).length : ℤ) + k).toNat) := by
  intro l10 files w m t
  have hsorted := analyzedPipeline_sorted l10 files w m
  have hfiles : (analyzeCoverage l10 files w m t).files =
      (match t with
        | some k => if k = 0 then analyzedPipeline l10 files w m
            else jsSliceTo (analyzedPipeline l10 files w m) k
        | none => analyzedPipeline l10 files w m) := rfl
  refine ⟨?_, fun ht => ?_, fun ht => ?_, fun k hk ht => ?_, fun k hk ht => ?_⟩
  · rw [hfiles]
    cases t with
    | none => exact hsorted
    | some k =>
      by_cases hk : k = 0
      · simpa [hk] using hsorted
      · rw [show (match some k with
            | some k => if k = 0 then analyzedPipeline l10 files w m
                else jsSliceTo (analyzedPipeline l10 files w m) k
            | none => analyzedPipeline l10 files w m) =
            jsSliceTo (analyzedPipeline l10 files w m) k by simp [hk]]
        unfold jsSliceTo
        split_ifs <;> exact List.Pairwise.sublist (List.take_sublist _ _) hsorted
  · subst ht; exact hfiles
  · subst ht; simpa using hfiles
  · subst ht
    rw [hfiles]
    simp only [if_neg (by omega : ¬ k = 0)]
    unfold jsSliceTo
    rw [if_pos (le_of_lt hk)]
  · subst ht
    rw [hfiles]
    simp only [if_neg (by omega : ¬ k = 0)]
    unfold jsSliceTo
    rw [if_neg (by omega : ¬ (0 : ℤ) ≤ k)]

/-- C4 witness: with `top = 1` over two surviving files the result is the
first element of the sorted pipeline, and it is sorted. -/
theorem top_truncation_witness :
    (analyzeCoverage (fun _ => 1)
        [{ file := ['a'], linesFound := some 1, linesHit := some 1,
           functionsFound := some 0, functionsHit := some 0,
           branchesFound := some 0, branchesHit := some 0 },
         { file := ['b'], linesFound := some 2, linesHit := some 1,
           functionsFound := some 0, functionsHit := some 0,
           branchesFound := some 0, branchesHit := some 0 }]
        { lines := 1, functions := 1, branches := 1 } 0 (some 1)).files =
      (analyzedPipeline (fun _ => 1)
        [{ file := ['a'], linesFound := some 1, linesHit := some 1,
           functionsFound := some 0, functionsHit := some 0,
           branchesFound := some 0, branchesHit := some 0 },
         { file := ['b'], linesFound := some 2, linesHit := some 1,
           functionsFound := some 0, functionsHit := some 0,
           branchesFound := some 0, branchesHit := some 0 }]
        { lines := 1, functions := 1, branches := 1 } 0).take 1 ∧
    ((analyzeCoverage (fun _ => 1)
        [{ file := ['a'], linesFound := some 1, linesHit := some 1,
           functionsFound := some 0, functionsHit := some 0,
           branchesFound := some 0, branchesHit := some 0 },
         { file := ['b'], linesFound := some 2, linesHit := some 1,
           functionsFound := some 0, functionsHit := some 0,
           branchesFound := some 0, branchesHit := some 0 }]
        { lines := 1, functions := 1, branches := 1 } 0 (some 1)).files).Pairwise
      (fun a b => b.priorityScore.getD 0 ≤ a.priorityScore.getD 0) :=
  ⟨(top_truncation (fun _ => 1) _ _ _ _).2.2.2.1 1 one_pos rfl,
    (top_truncation (fun _ => 1) _ _ _ _).1⟩

theorem isPrefixOf_cons_elim {a : Char} {as l : List Char}
    (h : (a :: as).isPrefixOf l = true) :
    ∃ t, l = a :: t ∧ as.isPrefixOf t = true := by
  cases l with
  | nil => simp at h
  | cons b bs =>
    rw [List.isPrefixOf_cons₂, Bool.and_eq_true] at h
    exact ⟨bs, by rw [eq_of_beq h.1], h.2⟩

theorem lcovStep_lh {fs : List LcovFileData} {c : LcovFileData} {line : List Char}
    (h : lhMark.isPrefixOf (trimChars line) = true) :
    lcovStep (fs, some c) line =
      (fs, some { c with linesHit := jsParseInt ((trimChars line).drop 3) }) := by
  obtain ⟨t1, ht1, h1⟩ := isPrefixOf_cons_elim h
  obtain ⟨t2, ht2, -⟩ := isPrefixOf_cons_elim h1
  have hsf : sfMark.isPrefixOf (trimChars line) = false := by
    rw [ht1]; exact isPrefixOf_false_of_head_ne (by decide)
  have hlf : lfMark.isPrefixOf (trimChars line) = false := by
    rw [ht1, ht2]; exact isPrefixOf_false_of_second_ne (by decide)
  simp [lcovStep, hsf, hlf, h]

theorem lcovStep_fnf {fs : List LcovFileData} {c : LcovFileData} {line : List Char}
    (h : fnfMark.isPrefixOf (trimChars line) = true) :
    lcovStep (fs, some c) line =
      (fs, some { c with functionsFound := jsParseInt ((trimChars line).drop 4) }) := by
  obtain ⟨t1, ht1, -⟩ := isPrefixOf_cons_elim h
  have hsf : sfMark.isPrefixOf (trimChars line) = false := by
    rw [ht1]; exact isPrefixOf_false_of_head_ne (by decide)
  have hlf : lfMark.isPrefixOf (trimChars line) = false := by
    rw [ht1]; exact isPrefixOf_false_of_head_ne (by decide)
  have hlh : lhMark.isPrefixOf (trimChars line) = false := by
    rw [ht1]; exact isPrefixOf_false_of_head_ne (by decide)
  simp [lcovStep, hsf, hlf, hlh, h]

theorem lcovStep_fnh {fs : List LcovFileData} {c : LcovFileData} {line : List Char}
    (h : fnhMark.isPrefixOf (trimChars line) = true) :
    lcovStep (fs, some c) line =
      (fs, some { c with functionsHit := jsParseInt ((trimChars line).drop 4) }) := by
  obtain ⟨t1, ht1, h1⟩ := isPrefixOf_cons_elim h
  obtain ⟨t2, ht2, h2⟩ := isPrefixOf_cons_elim h1
  obtain ⟨t3, ht3, -⟩ := isPrefixOf_cons_elim h2
  have hsf : sfMark.isPrefixOf (trimChars line) = false := by
    rw [ht1]; exact isPrefixOf_false_of_head_ne (by decide)
  have hlf : lfMark.isPrefixOf (trimChars line) = false := by
    rw [ht1]; exact isPrefixOf_false_of_head_ne (by decide)
  have hlh : lhMark.isPrefixOf (trimChars line) = false := by
    rw [ht1]; exact isPrefixOf_false_of_head_ne (by decide)
  have hfnf : fnfMark.isPrefixOf (trimChars line) = false := by
    rw [ht1, ht2, ht3]; exact isPrefixOf_false_of_third_ne (by decide)
  simp [lcovStep, hsf, hlf, hlh, hfnf, h]

theorem lcovStep_brf {fs : List LcovFileData} {c : LcovFileData} {line : List Char}
    (h : brfMark.isPrefixOf (trimChars line) = true) :
    lcovStep (fs, some c) line =
      (fs, some { c with branchesFound := jsParseInt ((trimChars line).drop 4) }) := by
  obtain ⟨t1, ht1, -⟩ := isPrefixOf_cons_elim h
  have hsf : sfMark.isPrefixOf (trimChars line) = false := by
    rw [ht1]; exact isPrefixOf_false_of_head_ne (by decide)
  have hlf : lfMark.isPrefixOf (trimChars line) = false := by
    rw [ht1]; exact isPrefixOf_false_of_head_ne (by decide)
  have hlh : lhMark.isPrefixOf (trimChars line) = false := by
    rw [ht1]; exact isPrefixOf_false_of_head_ne (by decide)
  have hfnf : fnfMark.isPrefixOf (trimChars line) = false := by
    rw [ht1]; exact isPrefixOf_false_of_head_ne (by decide)
  have hfnh : fnhMark.isPrefixOf (trimChars line) = false := by
    rw [ht1]; exact isPrefixOf_false_of_head_ne (by decide)
  simp [lcovStep, hsf, hlf, hlh, hfnf, hfnh, h]

theorem lcovStep_brh {fs : List LcovFileData} {c : LcovFileData} {line : List Char}
    (h : brhMark.isPrefixOf (trimChars line) = true) :
    lcovStep (fs, some c) line =
      (fs, some { c with branchesHit := jsParseInt ((trimChars line).drop 4) }) := by
  obtain ⟨t1, ht1, h1⟩ := isPrefixOf_cons_elim h
  obtain ⟨t2, ht2, h2⟩ := isPrefixOf_cons_elim h1
  obtain ⟨t3, ht3, -⟩ := isPrefixOf_cons_elim h2
  have hsf : sfMark.isPrefixOf (trimChars line) = false := by
    rw [ht1]; exact isPrefixOf_false_of_head_ne (by decide)
  have hlf : lfMark.isPrefixOf (trimChars line) = false := by
    rw [ht1]; exact isPrefixOf_false_of_head_ne (by decide)
  have hlh : lhMark.isPrefixOf (trimChars line) = false := by
    rw [ht1]; exact isPrefixOf_false_of_head_ne (by decide)
  have hfnf : fnfMark.isPrefixOf (trimChars line) = false := by
    rw [ht1]; exact isPrefixOf_false_of_head_ne (by decide)
  have hfnh : fnhMark.isPrefixOf (trimChars line) = false := by
    rw [ht1]; exact isPrefixOf_false_of_head_ne (by decide)
  have hbrf : brfMark.isPrefixOf (trimChars line) = false := by
    rw [ht1, ht2, ht3]; exact isPrefixOf_false_of_third_ne (by decide)
  simp [lcovStep, hsf, hlf, hlh, hfnf, hfnh, hbrf, h]

/-- C10: within an open record each counter line overwrites its field, so
when the same marker occurs on several lines the emitted tally holds the
value of the last occurrence — for every one of the six counter markers.
In each conjunct, `body1` — which may freely contain earlier lines with the
same marker — precedes the last line `l` carrying the marker; `body2` after
it contains no further `SF:`, same-marker, or `end_of_record` lines; the
record is then closed by `end_of_record`, and the emitted tally's field is
exactly the parse of `l`'s value part. -/
theorem last_counter_line_wins :
    (∀ (body1 body2 : List (List Char)) (l : List Char) (fs : List LcovFileData)
      (c : LcovFileData),
      (∀ x ∈ body1, sfMark.isPrefixOf (trimChars x) = false ∧
        trimChars x ≠ endMark) →
      lfMark.isPrefixOf (trimChars l) = true →
      (∀ x ∈ body2, sfMark.isPrefixOf (trimChars x) = false ∧
        lfMark.isPrefixOf (trimChars x) = false ∧ trimChars x ≠ endMark) →
      (((body1 ++ l :: (body2 ++ [endMark])).foldl lcovStep (fs, some c)).1.getLast?).map
          (fun d => d.linesFound) = some (jsParseInt ((trimChars l).drop 3))) ∧
    (∀ (body1 body2 : List (List Char)) (l : List Char) (fs : List LcovFileData)
      (c : LcovFileData),
      (∀ x ∈ body1, sfMark.isPrefixOf (trimChars x) = false ∧
        trimChars x ≠ endMark) →
      lhMark.isPrefixOf (trimChars l) = true →
      (∀ x ∈ body2, sfMark.isPrefixOf (trimChars x) = false ∧
        lhMark.isPrefixOf (trimChars x) = false ∧ trimChars x ≠ endMark) →
      (((body1 ++ l :: (body2 ++ [endMark])).foldl lcovStep (fs, some c)).1.getLast?).map
          (fun d => d.linesHit) = some (jsParseInt ((trimChars l).drop 3))) ∧
    (∀ (body1 body2 : List (List Char)) (l : List Char) (fs : List LcovFileData)
      (c : LcovFileData),
      (∀ x ∈ body1, sfMark.isPrefixOf (trimChars x) = false ∧
        trimChars x ≠ endMark) →
      fnfMark.isPrefixOf (trimChars l) = true →
      (∀ x ∈ body2, sfMark.isPrefixOf (trimChars x) = false ∧
        fnfMark.isPrefixOf (trimChars x) = false ∧ trimChars x ≠ endMark) →
      (((body1 ++ l :: (body2 ++ [endMark])).foldl lcovStep (fs, some c)).1.getLast?).map
          (fun d => d.functionsFound) = some (jsParseInt ((trimChars l).drop 4))) ∧
    (∀ (body1 body2 : List (List Char)) (l : List Char) (fs : List LcovFileData)
      (c : LcovFileData),
      (∀ x ∈ body1, sfMark.isPrefixOf (trimChars x) = false ∧
        trimChars x ≠ endMark) →
      fnhMark.isPrefixOf (trimChars l) = true →
      (∀ x ∈ body2, sfMark.isPrefixOf (trimChars x) = false ∧
        fnhMark.isPrefixOf (trimChars x) = false ∧ trimChars x ≠ endMark) →
      (((body1 ++ l :: (body2 ++ [endMark])).foldl lcovStep (fs, some c)).1.getLast?).map
          (fun d => d.functionsHit) = some (jsParseInt ((trimChars l).drop 4))) ∧
    (∀ (body1 body2 : List (List Char)) (l : List Char) (fs : List LcovFileData)
      (c : LcovFileData),
      (∀ x ∈ body1, sfMark.isPrefixOf (trimChars x) = false ∧
        trimChars x ≠ endMark) →
      brfMark.isPrefixOf (trimChars l) = true →
      (∀ x ∈ body2, sfMark.isPrefixOf (trimChars x) = false ∧
        brfMark.isPrefixOf (trimChars x) = false ∧ trimChars x ≠ endMark) →
      (((body1 ++ l :: (body2 ++ [endMark])).foldl lcovStep (fs, some c)).1.getLast?).map
          (fun d => d.branchesFound) = some (jsParseInt ((trimChars l).drop 4))) ∧
    (∀ (body1 body2 : List (List Char)) (l : List Char) (fs : List LcovFileData)
      (c : LcovFileData),
      (∀ x ∈ body1, sfMark.isPrefixOf (trimChars x) = false ∧
        trimChars x ≠ endMark) →
      brhMark.isPrefixOf (trimChars l) = true →
      (∀ x ∈ body2, sfMark.isPrefixOf (trimChars x) = false ∧
        brhMark.isPrefixOf (trimChars x) = false ∧ trimChars x ≠ endMark) →
      (((body1 ++ l :: (body2 ++ [endMark])).foldl lcovStep (fs, some c)).1.getLast?).map
          (fun d => d.branchesHit) = some (jsParseInt ((trimChars l).drop 4))) := by
  refine ⟨?_, ?_, ?_, ?_, ?_, ?_⟩ <;> intro body1 body2 l fs c h1 hl h2
  · obtain ⟨c1, hc1, -, -, -, -, -, -⟩ := foldl_lcovStep_some h1 fs c
    rw [List.foldl_append, hc1, List.foldl_cons, lcovStep_lf hl]
    obtain ⟨c3, hc3, q1, -, -, -, -, -⟩ :=
      foldl_lcovStep_some (fun x hx => ⟨(h2 x hx).1, (h2 x hx).2.2⟩) fs
        { c1 with linesFound := jsParseInt ((trimChars l).drop 3) }
    rw [List.foldl_append, hc3,
      show ([endMark] : List (List Char)).foldl lcovStep (fs, some c3) =
        lcovStep (fs, some c3) endMark from rfl,
      lcovStep_endMark,
      show (fs ++ [c3], (none : Option LcovFileData)).1 = fs ++ [c3] from rfl,
      List.getLast?_concat, Option.map_some',
      q1 (fun x hx => (h2 x hx).2.1)]
  · obtain ⟨c1, hc1, -, -, -, -, -, -⟩ := foldl_lcovStep_some h1 fs c
    rw [List.foldl_append, hc1, List.foldl_cons, lcovStep_lh hl]
    obtain ⟨c3, hc3, -, q2, -, -, -, -⟩ :=
      foldl_lcovStep_some (fun x hx => ⟨(h2 x hx).1, (h2 x hx).2.2⟩) fs
        { c1 with linesHit := jsParseInt ((trimChars l).drop 3) }
    rw [List.foldl_append, hc3,
      show ([endMark] : List (List Char)).foldl lcovStep (fs, some c3) =
        lcovStep (fs, some c3) endMark from rfl,
      lcovStep_endMark,
      show (fs ++ [c3], (none : Option LcovFileData)).1 = fs ++ [c3] from rfl,
      List.getLast?_concat, Option.map_some',
      q2 (fun x hx => (h2 x hx).2.1)]
  · obtain ⟨c1, hc1, -, -, -, -, -, -⟩ := foldl_lcovStep_some h1 fs c
    rw [List.foldl_append, hc1, List.foldl_cons, lcovStep_fnf hl]
    obtain ⟨c3, hc3, -, -, q3, -, -, -⟩ :=
      foldl_lcovStep_some (fun x hx => ⟨(h2 x hx).1, (h2 x hx).2.2⟩) fs
        { c1 with functionsFound := jsParseInt ((trimChars l).drop 4) }
    rw [List.foldl_append, hc3,
      show ([endMark] : List (List Char)).foldl lcovStep (fs, some c3) =
        lcovStep (fs, some c3) endMark from rfl,
      lcovStep_endMark,
      show (fs ++ [c3], (none : Option LcovFileData)).1 = fs ++ [c3] from rfl,
      List.getLast?_concat, Option.map_some',
      q3 (fun x hx => (h2 x hx).2.1)]
  · obtain ⟨c1, hc1, -, -, -, -, -, -⟩ := foldl_lcovStep_some h1 fs c
    rw [List.foldl_append, hc1, List.foldl_cons, lcovStep_fnh hl]
    obtain ⟨c3, hc3, -, -, -, q4, -, -⟩ :=
      foldl_lcovStep_some (fun x hx => ⟨(h2 x hx).1, (h2 x hx).2.2⟩) fs
        { c1 with functionsHit := jsParseInt ((trimChars l).drop 4) }
    rw [List.foldl_append, hc3,
      show ([endMark] : List (List Char)).foldl lcovStep (fs, some c3) =
        lcovStep (fs, some c3) endMark from rfl,
      lcovStep_endMark,
      show (fs ++ [c3], (none : Option LcovFileData)).1 = fs ++ [c3] from rfl,
      List.getLast?_concat, Option.map_some',
      q4 (fun x hx => (h2 x hx).2.1)]
  · obtain ⟨c1, hc1, -, -, -, -, -, -⟩ := foldl_lcovStep_some h1 fs c
    rw [List.foldl_append, hc1, List.foldl_cons, lcovStep_brf hl]
    obtain ⟨c3, hc3, -, -, -, -, q5, -⟩ :=
      foldl_lcovStep_some (fun x hx => ⟨(h2 x hx).1, (h2 x hx).2.2⟩) fs
        { c1 with branchesFound := jsParseInt ((trimChars l).drop 4) }
    rw [List.foldl_append, hc3,
      show ([endMark] : List (List Char)).foldl lcovStep (fs, some c3) =
        lcovStep (fs, some c3) endMark from rfl,
      lcovStep_endMark,
      show (fs ++ [c3], (none : Option LcovFileData)).1 = fs ++ [c3] from rfl,
      List.getLast?_concat, Option.map_some',
      q5 (fun x hx => (h2 x hx).2.1)]
  · obtain ⟨c1, hc1, -, -, -, -, -, -⟩ := foldl_lcovStep_some h1 fs c
    rw [List.foldl_append, hc1, List.foldl_cons, lcovStep_brh hl]
    obtain ⟨c3, hc3, -, -, -, -, -, q6⟩ :=
      foldl_lcovStep_some (fun x hx => ⟨(h2 x hx).1, (h2 x hx).2.2⟩) fs
        { c1 with branchesHit := jsParseInt ((trimChars l).drop 4) }
    rw [List.foldl_append, hc3,
      show ([endMark] : List (List Char)).foldl lcovStep (fs, some c3) =
        lcovStep (fs, some c3) endMark from rfl,
      lcovStep_endMark,
      show (fs ++ [c3], (none : Option LcovFileData)).1 = fs ++ [c3] from rfl,
      List.getLast?_concat, Option.map_some',
      q6 (fun x hx => (h2 x hx).2.1)]

/-- C10 witness: for each of the six markers, a record carrying the marker
twice (e.g. `LF:1` then `LF:2`) emits the value of the later line; the
`LF:` instance additionally has an unrelated `LH:3` line between the last
`LF:` line and the end marker. -/
theorem last_counter_line_wins_witness :
    (((["LF:1".toList] ++ "LF:2".toList :: (["LH:3".toList] ++ [endMark])).foldl
        lcovStep ([], some (freshTally ("a".toList)))).1.getLast?.map
      (fun d => d.linesFound) = some (some 2)) ∧
    (((["LH:1".toList] ++ "LH:2".toList :: ([] ++ [endMark])).foldl
        lcovStep ([], some (freshTally ("a".toList)))).1.getLast?.map
      (fun d => d.linesHit) = some (some 2)) ∧
    (((["FNF:1".toList] ++ "FNF:2".toList :: ([] ++ [endMark])).foldl
        lcovStep ([], some (freshTally ("a".toList)))).1.getLast?.map
      (fun d => d.functionsFound) = some (some 2)) ∧
    (((["FNH:1".toList] ++ "FNH:2".toList :: ([] ++ [endMark])).foldl
        lcovStep ([], some (freshTally ("a".toList)))).1.getLast?.map
      (fun d => d.functionsHit) = some (some 2)) ∧
    (((["BRF:1".toList] ++ "BRF:2".toList :: ([] ++ [endMark])).foldl
        lcovStep ([], some (freshTally ("a".toList)))).1.getLast?.map
      (fun d => d.branchesFound) = some (some 2)) ∧
    (((["BRH:1".toList] ++ "BRH:2".toList :: ([] ++ [endMark])).foldl
        lcovStep ([], some (freshTally ("a".toList)))).1.getLast?.map
      (fun d => d.branchesHit) = some (some 2)) :=
  ⟨(last_counter_line_wins.1 ["LF:1".toList] ["LH:3".toList] ("LF:2".toList) []
      (freshTally ("a".toList)) (by decide) (by decide) (by decide)).trans (by decide),
   (last_counter_line_wins.2.1 ["LH:1".toList] [] ("LH:2".toList) []
      (freshTally ("a".toList)) (by decide) (by decide) (by decide)).trans (by decide),
   (last_counter_line_wins.2.2.1 ["FNF:1".toList] [] ("FNF:2".toList) []
      (freshTally ("a".toList)) (by decide) (by decide) (by decide)).trans (by decide),
   (last_counter_line_wins.2.2.2.1 ["FNH:1".toList] [] ("FNH:2".toList) []
      (freshTally ("a".toList)) (by decide) (by decide) (by decide)).trans (by decide),
   (last_counter_line_wins.2.2.2.2.1 ["BRF:1".toList] [] ("BRF:2".toList) []
      (freshTally ("a".toList)) (by decide) (by decide) (by decide)).trans (by decide),
   (last_counter_line_wins.2.2.2.2.2 ["BRH:1".toList] [] ("BRH:2".toList) []
      (freshTally ("a".toList)) (by decide) (by decide) (by decide)).trans (by decide)⟩
